import Mathlib

/-!
Shallow embedding of the task/project store of the productivity app
(`src/Main.py`): the `DatabaseManager` operations (`add_task`, `get_tasks`,
`update_task_status`, `delete_task`, `add_project`, `get_projects`,
`get_task_statistics`) and the UI-level two-stage filter
(`ProductivityApp.filter_tasks`).

The SQLite rows become Lean structures; `CURRENT_TIMESTAMP` and
`datetime.now()` become an explicit `now : Nat` parameter; SQL `NULL` becomes
`Option`; AUTOINCREMENT ids become an explicit next-id counter on the store
state.  `ORDER BY created_date DESC` is modelled by insertion sort with the
relation "created_date ≥"; SQL leaves tie order unspecified, so theorems
about ordering only assert sortedness and multiset equality.  Python
truthiness of the optional `get_tasks` arguments (`if status:`,
`if project_id:`) is modelled exactly: a supplied empty string or a supplied
zero behaves like an absent filter.
-/

namespace TodoApp

/-- Row of the `tasks` table. -/
structure Task where
  id : Nat
  title : String
  description : String
  category : String
  project_id : Option Nat
  status : String
  priority : String
  due_date : Option String
  created_date : Nat
  completed_date : Option Nat
deriving DecidableEq

/-- Row of the `projects` table. -/
structure Project where
  id : Nat
  name : String
  description : String
  status : String
  created_date : Nat
  due_date : Option String
deriving DecidableEq

/-- Whole persisted store: both tables plus the AUTOINCREMENT counters. -/
structure DB where
  tasks : List Task
  projects : List Project
  next_task_id : Nat
  next_project_id : Nat
deriving DecidableEq

/-- Store produced by `init_database` on a fresh file: both tables empty,
AUTOINCREMENT starts at 1. -/
def emptyDB : DB :=
  { tasks := [], projects := [], next_task_id := 1, next_project_id := 1 }

/-- The row that `DatabaseManager.add_task` INSERTs: the given values plus
the schema defaults `status = 'todo'`, `created_date = CURRENT_TIMESTAMP`
(the `now` argument), `completed_date = NULL`, and the AUTOINCREMENT id. -/
def insertedTask (db : DB) (title : String) (description : String)
    (category : String) (project_id : Option Nat) (due_date : Option String)
    (priority : String) (now : Nat) : Task :=
  { id := db.next_task_id, title := title, description := description,
    category := category, project_id := project_id, status := "todo",
    priority := priority, due_date := due_date, created_date := now,
    completed_date := none }

/-- `DatabaseManager.add_task`: INSERT INTO tasks with the given values and
the schema defaults; returns `cursor.lastrowid` and the new store. -/
def add_task (db : DB) (title : String) (description : String)
    (category : String) (project_id : Option Nat) (due_date : Option String)
    (priority : String) (now : Nat) : Nat × DB :=
  (db.next_task_id,
    { db with
      tasks := db.tasks ++
        [insertedTask db title description category project_id due_date
          priority now],
      next_task_id := db.next_task_id + 1 })

/-- Result row of `get_tasks`: the task columns plus the LEFT-JOINed
`p.name as project_name` (NULL when `project_id` is NULL or dangling). -/
structure TaskRow where
  task : Task
  project_name : Option String
deriving DecidableEq

/-- The LEFT JOIN `projects p ON t.project_id = p.id` resolved for one task:
the joined project name, or none when the reference is null or dangling. -/
def resolveProjName (projects : List Project) (pid : Option Nat) :
    Option String :=
  match pid with
  | none => none
  | some p => (projects.find? (fun pr => pr.id == p)).map (fun pr => pr.name)

/-- Build one `get_tasks` result row for a task. -/
def annotateTask (db : DB) (t : Task) : TaskRow :=
  { task := t, project_name := resolveProjName db.projects t.project_id }

/-- The WHERE clause built by `get_tasks`: `AND t.status = ?` is only added
when the Python argument is truthy (not None and not the empty string), and
`AND t.project_id = ?` only when truthy (not None and not 0). -/
def taskMatchesFilters (status : Option String) (project_id : Option Nat)
    (t : Task) : Bool :=
  (match status with
   | none => true
   | some s => if s == "" then true else t.status == s) &&
  (match project_id with
   | none => true
   | some p => if p == 0 then true else t.project_id == some p)

/-- Comparison used to model `ORDER BY t.created_date DESC` on task rows. -/
def rowCreatedGe (a b : TaskRow) : Prop :=
  b.task.created_date ≤ a.task.created_date

instance : DecidableRel rowCreatedGe := fun a b =>
  inferInstanceAs (Decidable (b.task.created_date ≤ a.task.created_date))

instance : IsTotal TaskRow rowCreatedGe :=
  ⟨fun a b => Nat.le_total b.task.created_date a.task.created_date⟩

instance : IsTrans TaskRow rowCreatedGe :=
  ⟨fun _ _ _ h1 h2 => Nat.le_trans h2 h1⟩

/-- `DatabaseManager.get_tasks`: SELECT with the LEFT JOIN on projects, the
truthiness-guarded status and project filters, ORDER BY created_date DESC. -/
def get_tasks (db : DB) (status : Option String) (project_id : Option Nat) :
    List TaskRow :=
  List.insertionSort rowCreatedGe
    ((db.tasks.filter (taskMatchesFilters status project_id)).map
      (annotateTask db))

/-- `DatabaseManager.update_task_status`: computes
`completed_date = now if status == 'completed' else None`, then
`UPDATE tasks SET status = ?, completed_date = ? WHERE id = ?`. -/
def update_task_status (db : DB) (task_id : Nat) (status : String)
    (now : Nat) : DB :=
  let completed_date : Option Nat :=
    if status == "completed" then some now else none
  { db with
    tasks := db.tasks.map (fun t =>
      if t.id == task_id then
        { t with status := status, completed_date := completed_date }
      else t) }

/-- `DatabaseManager.delete_task`: `DELETE FROM tasks WHERE id = ?`. -/
def delete_task (db : DB) (task_id : Nat) : DB :=
  { db with tasks := db.tasks.filter (fun t => !(t.id == task_id)) }

/-- `DatabaseManager.add_project`: INSERT INTO projects; schema defaults give
`status = 'active'` and `created_date = CURRENT_TIMESTAMP` (the `now`
argument).  Returns `cursor.lastrowid` and the new store. -/
def add_project (db : DB) (name : String) (description : String)
    (due_date : Option String) (now : Nat) : Nat × DB :=
  let p : Project :=
    { id := db.next_project_id, name := name, description := description,
      status := "active", created_date := now, due_date := due_date }
  (db.next_project_id,
    { db with projects := db.projects ++ [p],
              next_project_id := db.next_project_id + 1 })

/-- Result row of `get_projects`: the project columns plus the two aggregate
counts `COUNT(t.id)` and `COUNT(CASE WHEN t.status = 'completed' THEN 1 END)`
over the LEFT-JOINed tasks grouped by `p.id`. -/
structure ProjectRow where
  project : Project
  total_tasks : Nat
  completed_tasks : Nat
deriving DecidableEq

/-- Comparison used to model `ORDER BY p.created_date DESC` on project
rows. -/
def projCreatedGe (a b : ProjectRow) : Prop :=
  b.project.created_date ≤ a.project.created_date

instance : DecidableRel projCreatedGe := fun a b =>
  inferInstanceAs (Decidable (b.project.created_date ≤ a.project.created_date))

instance : IsTotal ProjectRow projCreatedGe :=
  ⟨fun a b => Nat.le_total b.project.created_date a.project.created_date⟩

instance : IsTrans ProjectRow projCreatedGe :=
  ⟨fun _ _ _ h1 h2 => Nat.le_trans h2 h1⟩

/-- `DatabaseManager.get_projects`: every project with its per-project task
counts (a project with no tasks joins against nothing, so both COUNTs are 0),
ORDER BY created_date DESC. -/
def get_projects (db : DB) : List ProjectRow :=
  List.insertionSort projCreatedGe
    (db.projects.map (fun p =>
      let ts := db.tasks.filter (fun t => t.project_id == some p.id)
      { project := p, total_tasks := ts.length,
        completed_tasks :=
          (ts.filter (fun t => t.status == "completed")).length }))

/-- A `SELECT k, COUNT(*) FROM ... GROUP BY k` result: one (key, count) pair
per distinct key of the scanned column. -/
def keyCounts (l : List String) : List (String × Nat) :=
  l.dedup.map (fun k => (k, l.count k))

/-- Result of `get_task_statistics`: the three GROUP BY aggregates. -/
structure Stats where
  status : List (String × Nat)
  category : List (String × Nat)
  priority : List (String × Nat)
deriving DecidableEq

/-- `DatabaseManager.get_task_statistics`: status and priority counts over
all tasks; category counts over `WHERE category != ''`. -/
def get_task_statistics (db : DB) : Stats :=
  { status := keyCounts (db.tasks.map (fun t => t.status)),
    category :=
      keyCounts
        ((db.tasks.filter (fun t => !(t.category == ""))).map
          (fun t => t.category)),
    priority := keyCounts (db.tasks.map (fun t => t.priority)) }

/-- Character-list check that `n` is an initial segment of `h`. -/
def leadMatch : List Char → List Char → Bool
  | [], _ => true
  | _ :: _, [] => false
  | a :: n, b :: h => a == b && leadMatch n h

/-- Character-list substring check, modelling Python `n in h` on strings. -/
def occursIn (n : List Char) : List Char → Bool
  | [] => n.isEmpty
  | b :: h => leadMatch n (b :: h) || occursIn n h

/-- Python `str.lower()`: lowercase character by character. -/
def lowerStr (s : String) : String := ⟨s.data.map Char.toLower⟩

/-- The in-memory text predicate of `ProductivityApp.filter_tasks`:
`search_text in task.title.lower() or search_text in (description or
'').lower() or search_text in (category or '').lower()` (the search text has
already been lowercased by the caller). -/
def textMatches (search_text : String) (t : Task) : Bool :=
  occursIn search_text.data (lowerStr t.title).data ||
  occursIn search_text.data (lowerStr t.description).data ||
  occursIn search_text.data (lowerStr t.category).data

/-- `ProductivityApp.filter_tasks`: lowercase the search box text, map the
combobox value ("All" means no status filter) to the `get_tasks` argument,
fetch, then keep only text matches when the search text is nonempty. -/
def filter_tasks (db : DB) (status_filter : String) (search_raw : String) :
    List TaskRow :=
  let search_text := lowerStr search_raw
  let status : Option String :=
    if status_filter == "All" then none else some status_filter
  let tasks := get_tasks db status none
  if search_text == "" then tasks
  else tasks.filter (fun r => textMatches search_text r.task)

/-- Spec-side filter predicate for `listTasks`: the conjunction (logical
AND) of the supplied filters, each filter absent meaning no constraint. -/
def specFilterPred (status : Option String) (project_id : Option Nat)
    (t : Task) : Bool :=
  (match status with
   | none => true
   | some s => t.status == s) &&
  (match project_id with
   | none => true
   | some p => t.project_id == some p)

/-- Store-wide completed-date invariant: a task's completed_date is non-null
exactly when its status is completed. -/
def CompletedDateInv (db : DB) : Prop :=
  ∀ t ∈ db.tasks, (t.completed_date ≠ none ↔ t.status = "completed")

/-! ### Sample data used by witnesses -/

/-- A sample project used by witness theorems. -/
def sampleProject : Project :=
  { id := 1, name := "Home", description := "", status := "active",
    created_date := 0, due_date := none }

/-- A sample task used by witness theorems. -/
def sampleTask : Task :=
  { id := 1, title := "Buy milk", description := "", category := "work",
    project_id := some 1, status := "todo", priority := "medium",
    due_date := none, created_date := 0, completed_date := none }

/-- A sample store used by witness theorems. -/
def sampleDB : DB :=
  { tasks := [sampleTask], projects := [sampleProject],
    next_task_id := 2, next_project_id := 2 }

/-- The sample task as `update_task_status` rewrites it when marking it
completed at time 5. -/
def sampleTaskCompleted : Task :=
  { sampleTask with status := "completed", completed_date := some 5 }

/-- The `get_projects` row for the sample project in the sample store. -/
def sampleProjectRow : ProjectRow :=
  { project := sampleProject, total_tasks := 1, completed_tasks := 0 }

/-! ### Helper lemmas -/

theorem annotateTask_task (db : DB) (t : Task) : (annotateTask db t).task = t :=
  rfl

theorem mem_get_tasks_iff {db : DB} {stF : Option String} {pidF : Option Nat}
    {r : TaskRow} :
    r ∈ get_tasks db stF pidF ↔
      ∃ t, t ∈ db.tasks ∧ taskMatchesFilters stF pidF t = true ∧
        annotateTask db t = r := by
  unfold get_tasks
  rw [List.Perm.mem_iff (List.perm_insertionSort _ _)]
  simp only [List.mem_map, List.mem_filter]
  constructor
  · rintro ⟨t, ⟨ht, hp⟩, he⟩
    exact ⟨t, ht, hp, he⟩
  · rintro ⟨t, ht, hp, he⟩
    exact ⟨t, ⟨ht, hp⟩, he⟩

/-! ### Claim theorems -/

/-- C10: a falsy filter value is no filter at all — `get_tasks` with the
empty string as status filter (or with 0 as the project filter) returns the
same result as with that filter absent. -/
theorem get_tasks_falsy_filter_is_absent (db : DB) (stF : Option String)
    (pidF : Option Nat) :
    get_tasks db (some "") pidF = get_tasks db none pidF ∧
    get_tasks db stF (some 0) = get_tasks db stF none := by
  constructor
  · have hpred : taskMatchesFilters (some "") pidF =
        taskMatchesFilters none pidF := by
      funext t
      simp [taskMatchesFilters]
    unfold get_tasks
    rw [hpred]
  · have hpred : taskMatchesFilters stF (some 0) =
        taskMatchesFilters stF none := by
      funext t
      simp [taskMatchesFilters]
    unfold get_tasks
    rw [hpred]

/-- C4 counterexample: on the empty store, updating the status of the
nonexistent task 1 raises no error at all — the call silently returns and
the store is unchanged, so the claimed NotFoundError does not occur. -/
theorem update_task_status_missing_counterexample :
    update_task_status emptyDB 1 "completed" 0 = emptyDB :=
  rfl

/-- C4 (amended): updating the status of a nonexistent task id is a silent
no-op — the UPDATE matches no row, no error is raised, and the whole store
(in particular the stored task set) is unchanged. -/
theorem update_task_status_missing_noop (db : DB) (task_id : Nat)
    (status : String) (now : Nat) (h : ∀ t ∈ db.tasks, t.id ≠ task_id) :
    update_task_status db task_id status now = db := by
  have hmap : ∀ l : List Task, (∀ t ∈ l, t.id ≠ task_id) →
      l.map (fun t =>
        if t.id == task_id then
          { t with status := status,
                   completed_date :=
                     if status == "completed" then some now else none }
        else t) = l := by
    intro l hl
    induction l with
    | nil => rfl
    | cons a l ih =>
      have ha : (a.id == task_id) = false :=
        beq_eq_false_iff_ne.mpr (hl a (List.mem_cons_self a l))
      simp only [List.map_cons, ha, Bool.false_eq_true, if_false]
      rw [ih (fun t ht => hl t (List.mem_cons_of_mem a ht))]
  simp only [update_task_status]
  rw [hmap db.tasks h]

/-- C4 witness: the amended no-op statement applied to the sample store and
the nonexistent id 7. -/
theorem update_task_status_missing_noop_witness :
    update_task_status sampleDB 7 "todo" 3 = sampleDB :=
  update_task_status_missing_noop sampleDB 7 "todo" 3 (by decide)

/-- C3 counterexample: `add_task` called with an empty title on the empty
store does not fail — it persists a new row whose title is the empty string;
likewise `add_project` with an empty name persists a row. -/
theorem add_task_empty_title_counterexample :
    (add_task emptyDB "" "" "" none none "medium" 0).2.tasks.length = 1 ∧
    ((add_task emptyDB "" "" "" none none "medium" 0).2.tasks.map
        (fun t => t.title)) = [""] ∧
    (add_project emptyDB "" "" none 0).2.projects.length = 1 := by
  refine ⟨rfl, rfl, rfl⟩

/-- C3 (amended): the store layer performs no empty-title/empty-name
validation — `add_task` with an empty title persists exactly one new row
(carrying the empty title and the returned fresh id), and `add_project`
with an empty name persists exactly one new row. -/
theorem add_task_empty_title_persists (db : DB) (description category : String)
    (project_id : Option Nat) (due_date : Option String) (priority : String)
    (now : Nat) :
    (add_task db "" description category project_id due_date priority
        now).2.tasks.length = db.tasks.length + 1 ∧
    (∃ t ∈ (add_task db "" description category project_id due_date priority
        now).2.tasks,
      t.title = "" ∧
      t.id = (add_task db "" description category project_id due_date priority
        now).1) ∧
    (add_project db "" description due_date now).2.projects.length =
      db.projects.length + 1 ∧
    (∃ p ∈ (add_project db "" description due_date now).2.projects,
      p.name = "" ∧ p.id = (add_project db "" description due_date now).1) := by
  refine ⟨?_, ?_, ?_, ?_⟩
  · simp [add_task]
  · refine ⟨insertedTask db "" description category project_id due_date
        priority now, ?_, rfl, rfl⟩
    simp [add_task]
  · simp [add_project]
  · refine ⟨{ id := db.next_project_id, name := "", description := description,
              status := "active", created_date := now, due_date := due_date },
      ?_, rfl, rfl⟩
    simp [add_project]

theorem mem_update_tasks {db : DB} {task_id : Nat} {status : String}
    {now : Nat} {t : Task}
    (ht : t ∈ (update_task_status db task_id status now).tasks)
    (hid : t.id = task_id) :
    t.status = status ∧
    t.completed_date = (if status == "completed" then some now else none) := by
  simp only [update_task_status, List.mem_map] at ht
  obtain ⟨a, ha, he⟩ := ht
  by_cases hcase : (a.id == task_id) = true
  · rw [if_pos hcase] at he
    subst he
    exact ⟨rfl, rfl⟩
  · rw [if_neg hcase] at he
    subst he
    exact absurd hid (by simpa using hcase)

/-- C2: after `update_task_status(id, newStatus)` the targeted task's
completed_date is non-null iff newStatus is completed; with newStatus
completed it equals the current timestamp; a subsequent update back to todo
or in_progress nulls it again; and the store-wide iff-invariant between
completed_date and status is preserved by every status update. -/
theorem update_task_status_completed_date (db : DB) (task_id now : Nat)
    (status : String) :
    (∀ t ∈ (update_task_status db task_id status now).tasks,
        t.id = task_id → (t.completed_date ≠ none ↔ status = "completed")) ∧
    (∀ t ∈ (update_task_status db task_id "completed" now).tasks,
        t.id = task_id → t.completed_date = some now) ∧
    (∀ status2 now2, (status2 = "todo" ∨ status2 = "in_progress") →
      ∀ t ∈ (update_task_status (update_task_status db task_id "completed" now)
               task_id status2 now2).tasks,
        t.id = task_id → t.completed_date = none) ∧
    (CompletedDateInv db →
      CompletedDateInv (update_task_status db task_id status now)) := by
  refine ⟨?_, ?_, ?_, ?_⟩
  · intro t ht hid
    rw [(mem_update_tasks ht hid).2]
    by_cases hst : status = "completed" <;> simp [hst]
  · intro t ht hid
    rw [(mem_update_tasks ht hid).2]
    simp
  · intro status2 now2 h2 t ht hid
    rw [(mem_update_tasks ht hid).2]
    rcases h2 with rfl | rfl <;> simp
  · intro hInv t ht
    simp only [update_task_status, List.mem_map] at ht
    obtain ⟨a, ha, he⟩ := ht
    by_cases hcase : (a.id == task_id) = true
    · rw [if_pos hcase] at he
      subst he
      by_cases hst : status = "completed" <;> simp [hst]
    · rw [if_neg hcase] at he
      subst he
      exact hInv a ha

/-- C2 witness: in the sample store, marking task 1 completed at time 5
leaves it with completed_date = some 5. -/
theorem update_task_status_completed_date_witness :
    sampleTaskCompleted.completed_date = some 5 :=
  (update_task_status_completed_date sampleDB 1 5 "completed").2.1
    sampleTaskCompleted (by decide) (by decide)

/-- C9: `update_task_status` touches only the status and completed_date
columns of the targeted row — the projects table, the id counters, the list
of tasks position by position (all other columns of the targeted task, and
every task whose id differs entirely) are unchanged. -/
theorem update_task_status_frame (db : DB) (task_id : Nat) (status : String)
    (now : Nat) :
    (update_task_status db task_id status now).projects = db.projects ∧
    (update_task_status db task_id status now).next_task_id =
      db.next_task_id ∧
    (update_task_status db task_id status now).next_project_id =
      db.next_project_id ∧
    (update_task_status db task_id status now).tasks.length =
      db.tasks.length ∧
    (∀ i : Nat,
      ((update_task_status db task_id status now).tasks[i]?).map
          (fun t => t.id) = (db.tasks[i]?).map (fun t => t.id) ∧
      ((update_task_status db task_id status now).tasks[i]?).map
          (fun t => t.title) = (db.tasks[i]?).map (fun t => t.title) ∧
      ((update_task_status db task_id status now).tasks[i]?).map
          (fun t => t.description) =
        (db.tasks[i]?).map (fun t => t.description) ∧
      ((update_task_status db task_id status now).tasks[i]?).map
          (fun t => t.category) = (db.tasks[i]?).map (fun t => t.category) ∧
      ((update_task_status db task_id status now).tasks[i]?).map
          (fun t => t.project_id) =
        (db.tasks[i]?).map (fun t => t.project_id) ∧
      ((update_task_status db task_id status now).tasks[i]?).map
          (fun t => t.priority) = (db.tasks[i]?).map (fun t => t.priority) ∧
      ((update_task_status db task_id status now).tasks[i]?).map
          (fun t => t.due_date) = (db.tasks[i]?).map (fun t => t.due_date) ∧
      ((update_task_status db task_id status now).tasks[i]?).map
          (fun t => t.created_date) =
        (db.tasks[i]?).map (fun t => t.created_date)) ∧
    (∀ i : Nat, ∀ t, db.tasks[i]? = some t → t.id ≠ task_id →
      (update_task_status db task_id status now).tasks[i]? = some t) := by
  refine ⟨rfl, rfl, rfl, by simp [update_task_status], ?_, ?_⟩
  · intro i
    simp only [update_task_status, List.getElem?_map]
    cases hx : db.tasks[i]? with
    | none => simp
    | some a =>
      refine ⟨?_, ?_, ?_, ?_, ?_, ?_, ?_, ?_⟩ <;>
        · simp only [Option.map_some']
          by_cases hcase : (a.id == task_id) = true
          · rw [if_pos hcase]
          · rw [if_neg hcase]
  · intro i t hget hne
    simp only [update_task_status, List.getElem?_map, hget, Option.map_some']
    rw [if_neg (by simpa using hne)]

/-- C9 witness: updating the nonexistent id 2 leaves the sample task at
position 0 untouched. -/
theorem update_task_status_frame_witness :
    (update_task_status sampleDB 2 "completed" 5).tasks[0]? =
      some sampleTask :=
  (update_task_status_frame sampleDB 2 "completed" 5).2.2.2.2.2 0 sampleTask
    (by decide) (by decide)

theorem taskMatchesFilters_eq_spec {stF : Option String} {pidF : Option Nat}
    (hst : stF ≠ some "") (hpid : pidF ≠ some 0) :
    taskMatchesFilters stF pidF = specFilterPred stF pidF := by
  funext t
  unfold taskMatchesFilters specFilterPred
  cases stF with
  | none =>
    cases pidF with
    | none => rfl
    | some p =>
      have hp : (p == 0) = false :=
        beq_eq_false_iff_ne.mpr (fun h => hpid (by rw [h]))
      simp [hp]
  | some s =>
    have hs : (s == "") = false :=
      beq_eq_false_iff_ne.mpr (fun h => hst (by rw [h]))
    cases pidF with
    | none => simp [hs]
    | some p =>
      have hp : (p == 0) = false :=
        beq_eq_false_iff_ne.mpr (fun h => hpid (by rw [h]))
      simp [hs, hp]

/-- C5: `get_tasks` returns exactly the tasks satisfying the conjunction of
the supplied filters (all tasks when none is supplied), sorted by
created_date descending, each annotated with the resolved project name —
none when the project reference is null or dangling, the matching project's
name when it resolves. -/
theorem get_tasks_filters_order_annot (db : DB) (stF : Option String)
    (pidF : Option Nat) (hst : stF ≠ some "") (hpid : pidF ≠ some 0) :
    (get_tasks db stF pidF).Perm
        ((db.tasks.filter (specFilterPred stF pidF)).map (annotateTask db)) ∧
    List.Sorted rowCreatedGe (get_tasks db stF pidF) ∧
    (∀ r ∈ get_tasks db stF pidF,
      r.task ∈ db.tasks ∧
      (∀ s, stF = some s → r.task.status = s) ∧
      (∀ p, pidF = some p → r.task.project_id = some p) ∧
      (r.task.project_id = none → r.project_name = none) ∧
      (∀ pid, r.task.project_id = some pid →
        (∀ pr ∈ db.projects, pr.id ≠ pid) → r.project_name = none) ∧
      (∀ pid, r.task.project_id = some pid →
        ∀ pr ∈ db.projects, pr.id = pid →
          ∃ pr2 ∈ db.projects, pr2.id = pid ∧
            r.project_name = some pr2.name)) := by
  refine ⟨?_, ?_, ?_⟩
  · unfold get_tasks
    rw [taskMatchesFilters_eq_spec hst hpid]
    exact List.perm_insertionSort _ _
  · exact List.sorted_insertionSort _ _
  · intro r hr
    obtain ⟨t, ht, hp, he⟩ := mem_get_tasks_iff.mp hr
    rw [taskMatchesFilters_eq_spec hst hpid] at hp
    subst he
    refine ⟨ht, ?_, ?_, ?_, ?_, ?_⟩
    · intro s hsf
      subst hsf
      simp only [specFilterPred, Bool.and_eq_true, beq_iff_eq] at hp
      exact hp.1
    · intro p hpf
      subst hpf
      simp only [specFilterPred, Bool.and_eq_true, beq_iff_eq] at hp
      exact hp.2
    · intro h0
      simp only [annotateTask, resolveProjName]
      rw [show t.project_id = none from h0]
    · intro pid hpid2 hnone
      simp only [annotateTask, resolveProjName]
      rw [show t.project_id = some pid from hpid2]
      show Option.map (fun pr => pr.name)
          (List.find? (fun pr => pr.id == pid) db.projects) = none
      rw [List.find?_eq_none.mpr]
      · rfl
      · intro pr hpr
        simp only [beq_iff_eq]
        exact hnone pr hpr
    · intro pid hpid2 pr hpr hpreq
      have hsome : (db.projects.find? (fun x => x.id == pid)).isSome := by
        rw [List.find?_isSome]
        exact ⟨pr, hpr, by simp [beq_iff_eq, hpreq]⟩
      obtain ⟨pr2, hfind⟩ := Option.isSome_iff_exists.mp hsome
      refine ⟨pr2, List.mem_of_find?_eq_some hfind, ?_, ?_⟩
      · have := List.find?_some hfind
        simpa [beq_iff_eq] using this
      · simp only [annotateTask, resolveProjName]
        rw [show t.project_id = some pid from hpid2]
        show Option.map (fun pr => pr.name)
            (List.find? (fun pr => pr.id == pid) db.projects) = some pr2.name
        rw [hfind]
        rfl

/-- C5 witness: in the sample store, filtering by status todo and project 1
returns exactly the matching annotated tasks. -/
theorem get_tasks_filters_order_annot_witness :
    (get_tasks sampleDB (some "todo") (some 1)).Perm
      ((sampleDB.tasks.filter (specFilterPred (some "todo") (some 1))).map
        (annotateTask sampleDB)) :=
  (get_tasks_filters_order_annot sampleDB (some "todo") (some 1) (by decide)
    (by decide)).1

/-- C6: every row of `get_projects` satisfies completed_tasks ≤ total_tasks;
total_tasks counts exactly the stored tasks referencing that project, and
completed_tasks counts exactly those of them with status completed; a
project referenced by no task has total_tasks = 0. -/
theorem get_projects_counts (db : DB) :
    ∀ row ∈ get_projects db,
      row.completed_tasks ≤ row.total_tasks ∧
      row.total_tasks =
        (db.tasks.filter
          (fun t => t.project_id == some row.project.id)).length ∧
      row.completed_tasks =
        (db.tasks.filter (fun t =>
          t.project_id == some row.project.id &&
            t.status == "completed")).length ∧
      ((∀ t ∈ db.tasks, t.project_id ≠ some row.project.id) →
        row.total_tasks = 0) := by
  intro row hrow
  unfold get_projects at hrow
  rw [List.Perm.mem_iff (List.perm_insertionSort _ _)] at hrow
  simp only [List.mem_map] at hrow
  obtain ⟨p, hp, he⟩ := hrow
  subst he
  refine ⟨List.length_filter_le _ _, rfl, ?_, ?_⟩
  · show (List.filter (fun t => t.status == "completed")
        (List.filter (fun t => t.project_id == some p.id) db.tasks)).length =
      (List.filter (fun t =>
        t.project_id == some p.id && t.status == "completed")
        db.tasks).length
    have hcomm : (fun a : Task =>
        a.status == "completed" && a.project_id == some p.id) =
        (fun a : Task =>
          a.project_id == some p.id && a.status == "completed") := by
      funext a
      exact Bool.and_comm _ _
    rw [List.filter_filter, hcomm]
  · intro hnone
    show (List.filter (fun t => t.project_id == some p.id) db.tasks).length = 0
    rw [List.length_eq_zero]
    rw [List.filter_eq_nil_iff]
    intro t ht
    simp only [beq_iff_eq, Bool.not_eq_true]
    intro hcontra
    exact absurd hcontra (hnone t ht)

/-- C6 witness: the sample project's row counts the one sample task, none of
which is completed. -/
theorem get_projects_counts_witness :
    sampleProjectRow.total_tasks =
      (sampleDB.tasks.filter
        (fun t => t.project_id == some sampleProjectRow.project.id)).length :=
  (get_projects_counts sampleDB sampleProjectRow (by decide)).2.1

theorem sum_keyCounts (l : List String) :
    ((keyCounts l).map (fun kc => kc.2)).sum = l.length := by
  unfold keyCounts
  rw [List.map_map]
  exact List.sum_map_count_dedup_eq_length l

/-- C7: the category aggregate of `get_task_statistics` counts no task with
an empty category — its counts sum to the number of tasks with a non-empty
category and every key is non-empty — while the status and priority
aggregates are computed over the full task set, their counts summing to the
total number of tasks. -/
theorem get_task_statistics_spec (db : DB) :
    (((get_task_statistics db).category.map (fun kc => kc.2)).sum =
        (db.tasks.filter (fun t => !(t.category == ""))).length) ∧
    (∀ kc ∈ (get_task_statistics db).category, kc.1 ≠ "") ∧
    (((get_task_statistics db).status.map (fun kc => kc.2)).sum =
        db.tasks.length) ∧
    (((get_task_statistics db).priority.map (fun kc => kc.2)).sum =
        db.tasks.length) := by
  refine ⟨?_, ?_, ?_, ?_⟩
  · unfold get_task_statistics
    rw [sum_keyCounts, List.length_map]
  · intro kc hkc
    simp only [get_task_statistics, keyCounts, List.mem_map] at hkc
    obtain ⟨k, hk, he⟩ := hkc
    subst he
    have hkmem := List.mem_dedup.mp hk
    simp only [List.mem_map, List.mem_filter] at hkmem
    obtain ⟨t, ⟨ht, hcat⟩, hteq⟩ := hkmem
    simp only
    rw [show k = t.category from hteq.symm]
    intro hempty
    rw [hempty] at hcat
    simp at hcat
  · unfold get_task_statistics
    rw [sum_keyCounts, List.length_map]
  · unfold get_task_statistics
    rw [sum_keyCounts, List.length_map]

/-- C7 witness: the sample task's category "work" appears as a key of the
category aggregate, and it is non-empty. -/
theorem get_task_statistics_spec_witness :
    (("work", 1) : String × Nat).1 ≠ "" :=
  (get_task_statistics_spec sampleDB).2.1 ("work", 1) (by decide)

/-- C8: creating a task and then listing with no filters yields, up to
order, exactly the previous listing plus one new record that was not present
before, and the new record carries the given attributes with status todo,
completed_date null, the returned id, and the creation timestamp. -/
theorem add_task_then_get_tasks (db : DB) (title description category : String)
    (project_id : Option Nat) (due_date : Option String) (priority : String)
    (now : Nat) (hWF : ∀ t ∈ db.tasks, t.id < db.next_task_id)
    (htitle : title ≠ "") :
    (get_tasks (add_task db title description category project_id due_date
        priority now).2 none none).Perm
      (annotateTask db (insertedTask db title description category project_id
          due_date priority now) :: get_tasks db none none) ∧
    annotateTask db (insertedTask db title description category project_id
        due_date priority now) ∉ get_tasks db none none ∧
    (insertedTask db title description category project_id due_date priority
        now).title = title ∧
    (insertedTask db title description category project_id due_date priority
        now).description = description ∧
    (insertedTask db title description category project_id due_date priority
        now).category = category ∧
    (insertedTask db title description category project_id due_date priority
        now).project_id = project_id ∧
    (insertedTask db title description category project_id due_date priority
        now).due_date = due_date ∧
    (insertedTask db title description category project_id due_date priority
        now).priority = priority ∧
    (insertedTask db title description category project_id due_date priority
        now).status = "todo" ∧
    (insertedTask db title description category project_id due_date priority
        now).completed_date = none ∧
    (insertedTask db title description category project_id due_date priority
        now).id = (add_task db title description category project_id due_date
        priority now).1 ∧
    (insertedTask db title description category project_id due_date priority
        now).created_date = now := by
  have hfilter : ∀ l : List Task, l.filter (taskMatchesFilters none none) = l :=
    fun l => List.filter_eq_self.mpr (fun a _ => rfl)
  have hbase : (get_tasks db none none).Perm
      (db.tasks.map (annotateTask db)) := by
    unfold get_tasks
    rw [hfilter]
    exact List.perm_insertionSort _ _
  have hannot : annotateTask (add_task db title description category
      project_id due_date priority now).2 = annotateTask db := by
    funext t
    rfl
  have hnew : (get_tasks (add_task db title description category project_id
      due_date priority now).2 none none).Perm
      ((db.tasks ++ [insertedTask db title description category project_id
        due_date priority now]).map (annotateTask db)) := by
    unfold get_tasks
    rw [hannot]
    rw [show (add_task db title description category project_id due_date
        priority now).2.tasks = db.tasks ++ [insertedTask db title description
        category project_id due_date priority now] from rfl]
    rw [hfilter]
    exact List.perm_insertionSort _ _
  have h1 : ((db.tasks ++ [insertedTask db title description category
      project_id due_date priority now]).map (annotateTask db)).Perm
      (annotateTask db (insertedTask db title description category project_id
        due_date priority now) :: db.tasks.map (annotateTask db)) := by
    rw [List.map_append]
    exact List.perm_append_singleton _ _
  have hnotmem : annotateTask db (insertedTask db title description category
      project_id due_date priority now) ∉ get_tasks db none none := by
    intro hmem
    obtain ⟨t, ht, hp, he⟩ := mem_get_tasks_iff.mp hmem
    have hteq : t = insertedTask db title description category project_id
        due_date priority now := congrArg TaskRow.task he
    have hlt := hWF t ht
    rw [hteq] at hlt
    exact absurd hlt (Nat.lt_irrefl _)
  exact ⟨hnew.trans (h1.trans (List.Perm.cons _ hbase.symm)), hnotmem,
    rfl, rfl, rfl, rfl, rfl, rfl, rfl, rfl, rfl, rfl⟩

/-- C8 witness: adding one task to the empty store and listing it. -/
theorem add_task_then_get_tasks_witness :
    (get_tasks (add_task emptyDB "Buy milk" "" "" none none "medium" 0).2
        none none).Perm
      (annotateTask emptyDB
          (insertedTask emptyDB "Buy milk" "" "" none none "medium" 0) ::
        get_tasks emptyDB none none) :=
  (add_task_then_get_tasks emptyDB "Buy milk" "" "" none none "medium" 0
    (by intro t ht; exact absurd ht (List.not_mem_nil t)) (by decide)).1

theorem lowerStr_eq_empty_iff (q : String) : lowerStr q = "" ↔ q = "" := by
  constructor
  · intro h
    cases q with
    | mk l =>
      cases l with
      | nil => rfl
      | cons a l => simp [lowerStr, String.ext_iff] at h
  · intro h
    subst h
    rfl

theorem mem_get_tasks_status_iff {db : DB} {sel : String} (hsel : sel ≠ "")
    {r : TaskRow} :
    r ∈ get_tasks db (some sel) none ↔
      (r ∈ get_tasks db none none ∧ r.task.status = sel) := by
  have hs : (sel == "") = false := beq_eq_false_iff_ne.mpr hsel
  rw [mem_get_tasks_iff, mem_get_tasks_iff]
  constructor
  · rintro ⟨t, ht, hp, he⟩
    simp only [taskMatchesFilters, hs, Bool.false_eq_true, if_false,
      Bool.and_true, beq_iff_eq] at hp
    subst he
    exact ⟨⟨t, ht, rfl, rfl⟩, hp⟩
  · rintro ⟨⟨t, ht, _, he⟩, hst⟩
    subst he
    refine ⟨t, ht, ?_, rfl⟩
    simp only [taskMatchesFilters, hs, Bool.false_eq_true, if_false,
      Bool.and_true, beq_iff_eq]
    exact hst

/-- C1: the two-stage visible-task computation (status-filtered fetch, then
in-memory case-insensitive text filter over title/description/category)
returns exactly the unfiltered listing intersected with the text matches and
restricted to the selected status; an empty search term makes the text stage
the identity, and if no fetched task satisfies the combined criteria the
result is empty. -/
theorem filter_tasks_two_stage (db : DB) (sel q : String)
    (hsel : sel = "All" ∨ sel ≠ "") :
    (∀ r, r ∈ filter_tasks db sel q ↔
      (r ∈ get_tasks db none none ∧
       (q = "" ∨ textMatches (lowerStr q) r.task = true) ∧
       (sel = "All" ∨ r.task.status = sel))) ∧
    (q = "" → filter_tasks db sel q =
      get_tasks db (if sel == "All" then none else some sel) none) ∧
    ((∀ r ∈ get_tasks db none none,
        ¬((q = "" ∨ textMatches (lowerStr q) r.task = true) ∧
          (sel = "All" ∨ r.task.status = sel))) →
      filter_tasks db sel q = []) := by
  have hbase : ∀ r : TaskRow,
      r ∈ get_tasks db (if sel == "All" then none else some sel) none ↔
        (r ∈ get_tasks db none none ∧
          (sel = "All" ∨ r.task.status = sel)) := by
    intro r
    by_cases hAll : sel = "All"
    · subst hAll
      rw [if_pos (by simp)]
      constructor
      · intro h
        exact ⟨h, Or.inl rfl⟩
      · intro h
        exact h.1
    · rw [if_neg (by simpa using hAll)]
      rw [mem_get_tasks_status_iff (hsel.resolve_left hAll)]
      constructor
      · rintro ⟨h1, h2⟩
        exact ⟨h1, Or.inr h2⟩
      · rintro ⟨h1, h2⟩
        cases h2 with
        | inl h => exact absurd h hAll
        | inr h => exact ⟨h1, h⟩
  have hempty : filter_tasks db sel "" =
      get_tasks db (if sel == "All" then none else some sel) none := by
    show (if lowerStr "" == "" then
        get_tasks db (if sel == "All" then none else some sel) none
      else (get_tasks db (if sel == "All" then none else some sel)
        none).filter (fun r => textMatches (lowerStr "") r.task)) = _
    rw [if_pos (by decide)]
  have hmem : ∀ r, r ∈ filter_tasks db sel q ↔
      (r ∈ get_tasks db none none ∧
       (q = "" ∨ textMatches (lowerStr q) r.task = true) ∧
       (sel = "All" ∨ r.task.status = sel)) := by
    intro r
    by_cases hq : q = ""
    · subst hq
      rw [hempty, hbase r]
      constructor
      · rintro ⟨h1, h2⟩
        exact ⟨h1, Or.inl rfl, h2⟩
      · rintro ⟨h1, _, h3⟩
        exact ⟨h1, h3⟩
    · have hql : (lowerStr q == "") = false :=
        beq_eq_false_iff_ne.mpr (fun h => hq ((lowerStr_eq_empty_iff q).mp h))
      have hsplit : filter_tasks db sel q =
          (get_tasks db (if sel == "All" then none else some sel)
            none).filter (fun r => textMatches (lowerStr q) r.task) := by
        show (if lowerStr q == "" then
            get_tasks db (if sel == "All" then none else some sel) none
          else (get_tasks db (if sel == "All" then none else some sel)
            none).filter (fun r => textMatches (lowerStr q) r.task)) = _
        rw [if_neg (by simp [hql])]
      rw [hsplit, List.mem_filter, hbase r]
      constructor
      · rintro ⟨⟨h1, h3⟩, h2⟩
        exact ⟨h1, Or.inr h2, h3⟩
      · rintro ⟨h1, h2, h3⟩
        cases h2 with
        | inl h => exact absurd h hq
        | inr h => exact ⟨⟨h1, h3⟩, h⟩
  refine ⟨hmem, ?_, ?_⟩
  · intro hq
    subst hq
    exact hempty
  · intro hnone
    rw [List.eq_nil_iff_forall_not_mem]
    intro r hr
    have h := (hmem r).mp hr
    exact hnone r h.1 ⟨h.2.1, h.2.2⟩

/-- C1 witness: with the All selector and an empty search term, the
two-stage filter returns the status-stage fetch unchanged. -/
theorem filter_tasks_two_stage_witness :
    filter_tasks sampleDB "All" "" =
      get_tasks sampleDB
        (if ("All" : String) == "All" then none else some "All") none :=
  (filter_tasks_two_stage sampleDB "All" "" (Or.inl rfl)).2.1 rfl

end TodoApp
